import Mathlib

/-!
Verification of the AI-Mate household expense application.

This file gives a shallow embedding, in Lean 4, of the data model and the
operations of the repository: the SQL schema, triggers and RPC functions of
supabase_db_update.sql and its companion migration scripts, and the
client-side logic of HouseholdSetupScreen.tsx and ExpenseScreen.tsx
(expense form validation, monthly analytics, the join and create household
flows, the home screen expense loader, and the session storage adapters of
the supabase client files).  Machine numbers of the client are modelled as
exact rationals, identifiers as natural numbers, SQL NULL as Option, and
each remote operation as an explicit function on a database state.
-/

/-! ## Character and string facts used for the join code -/

/-- The uppercasing map never produces a lowercase ASCII letter. -/
theorem char_toUpper_not_isLower (c : Char) : (Char.toUpper c).isLower = false := by
  unfold Char.toUpper
  by_cases h : Char.toNat c ≥ 97 ∧ Char.toNat c ≤ 122
  · have hv : (Char.toNat c - 32).isValidChar := by left; omega
    rw [if_pos h]
    have hval : (Char.ofNat (Char.toNat c - 32)).toNat = Char.toNat c - 32 := by
      unfold Char.ofNat
      rw [dif_pos hv]
      unfold Char.ofNatAux Char.toNat
      simp [UInt32.ofNat', UInt32.toNat, BitVec.toNat_ofNatLt]
    have hiso : ∀ d : Char, d.isLower = (97 ≤ d.toNat && d.toNat ≤ 122) := by
      intro d
      simp [Char.isLower, Char.toNat]
      rfl
    rw [hiso, hval]
    simp only [Bool.and_eq_false_iff]
    left
    simp
    omega
  · rw [if_neg h]
    have hiso : Char.isLower c = (97 ≤ c.toNat && c.toNat ≤ 122) := by
      simp [Char.isLower, Char.toNat]
      rfl
    rw [hiso]
    simp only [Bool.and_eq_false_iff]
    rcases Nat.lt_or_ge (Char.toNat c) 97 with h2 | h2
    · left; simp; omega
    · right; simp; omega

/-- Model of the SQL builtin UPPER: uppercase every character. -/
def sqlUpper (s : String) : String :=
  String.mk (s.data.map Char.toUpper)

/-- Model of the SQL builtin SUBSTRING(s FROM 1 FOR n): the first n characters. -/
def sqlSubstring (s : String) (n : Nat) : String :=
  String.mk (s.data.take n)

theorem sqlUpper_length (s : String) : (sqlUpper s).length = s.length := by
  show (s.data.map Char.toUpper).length = s.data.length
  exact List.length_map s.data Char.toUpper

theorem sqlSubstring_length (s : String) (n : Nat) :
    (sqlSubstring s n).length = min n s.length := by
  show (s.data.take n).length = min n s.data.length
  exact List.length_take n s.data

/-! ## Join code generation (supabase_db_update.sql, trigger generate_join_code,
and the create_household_only RPC of the household creation fix script)

Both take the hexadecimal digest text produced by the SQL builtin MD5 (a
32-character string) and form UPPER of its first six characters.  The digest
string is a parameter of the embedding. -/

/-- The BEFORE INSERT trigger body: join_code := UPPER(SUBSTRING(md5text FROM 1 FOR 6)). -/
def generate_join_code (md5text : String) : String :=
  sqlUpper (sqlSubstring md5text 6)

/-- The code generation expression inside the create_household_only RPC:
UPPER(SUBSTRING(MD5(RANDOM()::TEXT) FROM 1 FOR 6)), as a function of the digest text. -/
def create_household_only_join_code (md5text : String) : String :=
  sqlUpper (sqlSubstring md5text 6)

/-! ## Database model (supabase_db_update.sql tables)

Rows carry the columns the claims mention; identifiers are natural numbers,
nullable columns are Option.  The UNIQUE (user_id, household_id) constraint
of household_members and the NOT NULL constraint on display_name are
enforced by the operation models below, exactly where the SQL functions
rely on them. -/

structure Profile where
  id : Nat
  full_name : Option String
  deriving DecidableEq

structure Household where
  id : Nat
  name : String
  created_by : Nat
  join_code : String
  deriving DecidableEq

structure HouseholdMember where
  user_id : Nat
  household_id : Nat
  display_name : String
  role : String
  deriving DecidableEq

structure DB where
  profiles : List Profile
  households : List Household
  members : List HouseholdMember
  deriving DecidableEq

/-- Does household_members contain a row for (user_id, household_id)?  This is
the membership test behind the UNIQUE constraint and the client existence
checks. -/
def memberExists (db : DB) (uid hid : Nat) : Bool :=
  db.members.any (fun m => m.user_id = uid && m.household_id = hid)

/-- The SQL function find_household_by_join_code: rows of households whose
join_code equals UPPER(search_code). -/
def find_household_by_join_code (db : DB) (search_code : String) : List Household :=
  db.households.filter (fun h => h.join_code = sqlUpper search_code)

/-- The SQL function join_household_with_code: look the household up by
UPPER(join_code_param); when found, INSERT the membership with
ON CONFLICT (user_id, household_id) DO NOTHING (role defaults to member)
and return the household id, else return NULL. -/
def join_household_with_code (db : DB) (join_code_param display_name_param : String)
    (uid : Nat) : DB × Option Nat :=
  match db.households.find? (fun h => h.join_code = sqlUpper join_code_param) with
  | some h =>
      if memberExists db uid h.id then (db, some h.id)
      else ({ db with members := db.members ++ [⟨uid, h.id, display_name_param, "member"⟩] },
            some h.id)
  | none => (db, none)

/-- The AFTER INSERT trigger function add_household_creator_as_member: insert
(created_by, id, full_name of the creator profile, admin) into
household_members.  When the SELECT produces NULL the NOT NULL constraint on
display_name rejects the row and the whole statement fails (result none). -/
def add_household_creator_as_member (db : DB) (hh : Household) : Option DB :=
  match (db.profiles.find? (fun p => p.id = hh.created_by)).bind Profile.full_name with
  | some fn =>
      some { db with members := db.members ++ [⟨hh.created_by, hh.id, fn, "admin"⟩] }
  | none => none

/-- An INSERT INTO households together with its triggers: the BEFORE trigger
generate_join_code sets join_code from the MD5 digest text, the row is
inserted, and the AFTER trigger adds the creator as an admin member.  A
trigger failure aborts the whole insert (result none). -/
def insertHousehold (db : DB) (newId : Nat) (hname : String) (created_by : Nat)
    (md5text : String) : Option DB :=
  let hh : Household := ⟨newId, hname, created_by, generate_join_code md5text⟩
  add_household_creator_as_member
    { db with households := db.households ++ [hh] } hh

/-! ## Client household flows (HouseholdSetupScreen.tsx)

The client functions are embedded as functions of the database state and
their form inputs; each remote call is interpreted against the database
model, and the outcome records which alert was shown or which household was
joined.  The authenticated user id and email are parameters (the supabase
auth.getUser call). -/

/-- Model of the JavaScript String.prototype.trim: drop whitespace from both
ends of the string. -/
def jsTrim (s : String) : String :=
  String.mk (((s.data.dropWhile Char.isWhitespace).reverse.dropWhile Char.isWhitespace).reverse)

/-- Model of the JavaScript String.prototype.toLowerCase for the ASCII
category names the client uses. -/
def jsToLower (s : String) : String :=
  String.mk (s.data.map Char.toLower)

/-- JavaScript test for a usable profile name: the value is neither null nor
the empty string (both are falsy in the client checks). -/
def jsNameTruthy : Option String → Bool
  | none => false
  | some s => s ≠ ""

/-- The client expression user.email ? user.email.split(at)[0] : fallback. -/
def emailUsername (email : Option String) (fallback : String) : String :=
  match email with
  | some e => if e = "" then fallback else (e.splitOn "@").headD ""
  | none => fallback

/-- Client profile upsert: replace the full_name of the existing row, or
insert a new row. -/
def upsertProfile (db : DB) (uid : Nat) (fullName : String) : DB :=
  if db.profiles.any (fun p => p.id = uid) then
    { db with profiles :=
        db.profiles.map (fun p => if p.id = uid then { p with full_name := some fullName } else p) }
  else
    { db with profiles := db.profiles ++ [⟨uid, some fullName⟩] }

/-- Outcome of the joinHousehold client flow: which alert stopped it, or the
household that was joined. -/
inductive JoinOutcome where
  | codeRequired
  | nameRequired
  | invalidCode
  | alreadyMember
  | joined (hid : Nat)
  deriving DecidableEq

/-- The joinHousehold function of HouseholdSetupScreen.tsx: validate the
form, look the household up through find_household_by_join_code on the
trimmed code, stop with an invalid-code alert when no row comes back, stop
when the user is already a member (also when the insert reports a unique
violation, error 23505), otherwise resolve a display name, upsert the
profile when it had no usable name, and insert the membership. -/
def joinHousehold (db : DB) (uid : Nat) (email : Option String)
    (joinCode displayName : String) (showNameField : Bool) : DB × JoinOutcome :=
  if jsTrim joinCode = "" then (db, .codeRequired)
  else if showNameField && jsTrim displayName = "" then (db, .nameRequired)
  else
    match find_household_by_join_code db (jsTrim joinCode) with
    | [] => (db, .invalidCode)
    | h :: _ =>
      if memberExists db uid h.id then (db, .alreadyMember)
      else
        let profileName := (db.profiles.find? (fun p => p.id = uid)).bind Profile.full_name
        let dn0 := jsTrim displayName
        let dn1 := if dn0 = "" && showNameField then emailUsername email "New Member" else dn0
        let userDisplayName :=
          if showNameField then dn1
          else if jsNameTruthy profileName then profileName.getD "" else emailUsername email "New Member"
        let db1 :=
          if !showNameField && !jsNameTruthy profileName then upsertProfile db uid userDisplayName
          else db
        if memberExists db1 uid h.id then (db1, .alreadyMember)
        else ({ db1 with members := db1.members ++ [⟨uid, h.id, userDisplayName, "member"⟩] },
              .joined h.id)

/-- Step 2 of createHousehold in HouseholdSetupScreen.tsx: after the
create_household_only RPC, check for an existing membership and, only when
none exists, insert the creator as an admin member. -/
def createHouseholdMemberStep (db : DB) (uid hid : Nat) (displayName : String) : DB :=
  if memberExists db uid hid then db
  else { db with members := db.members ++ [⟨uid, hid, displayName, "admin"⟩] }

/-! ## Expense analytics (AnalysisScreen inside ExpenseScreen.tsx)

Amounts are modelled as exact rationals.  The category field is Option so
that a null category and an empty category can both be distinguished from a
named one, exactly as the JavaScript falsy test does. -/

structure Expense where
  amount : ℚ
  category : Option String
  store_name : String
  date : String
  deriving DecidableEq

/-- The grouping key: expense.category, or Other when it is null or empty. -/
def categoryKey (e : Expense) : String :=
  match e.category with
  | some c => if c = "" then "Other" else c
  | none => "Other"

/-- getCategoryColor of the analysis screen: a switch on the lowercased name. -/
def getCategoryColor (category : String) : String :=
  let c := jsToLower category
  if c = "food" then "#FF9500"
  else if c = "groceries" then "#34C759"
  else if c = "shopping" then "#5AC8FA"
  else if c = "entertainment" then "#AF52DE"
  else if c = "transport" then "#007AFF"
  else if c = "transportation" then "#007AFF"
  else if c = "utilities" then "#FF3B30"
  else if c = "rent" then "#5856D6"
  else if c = "housing" then "#5856D6"
  else if c = "healthcare" then "#FF2D55"
  else if c = "health" then "#FF2D55"
  else if c = "education" then "#64D2FF"
  else if c = "travel" then "#FFCC00"
  else if c = "dining" then "#FF9500"
  else "#8E8E93"

/-- The in-place update of one group done by the forEach loop body: add the
amount and bump the count of the group whose key matches. -/
def bumpGroup (c : String) (amt : ℚ) (g : String × ℚ × ℕ) : String × ℚ × ℕ :=
  if g.1 = c then (g.1, g.2.1 + amt, g.2.2 + 1) else g

/-- One step of the forEach loop of calculateCategoryTotals: create the group
for the key when it is new, then add the amount and bump the count. -/
def addExpenseToGroups (groups : List (String × ℚ × ℕ)) (e : Expense) :
    List (String × ℚ × ℕ) :=
  let c := categoryKey e
  if groups.any (fun g => g.1 = c) then groups.map (bumpGroup c e.amount)
  else groups ++ [(c, e.amount, 1)]

/-- The categoryGroups record built by the forEach loop, as an association
list in first-appearance order. -/
def categoryGroups (es : List Expense) : List (String × ℚ × ℕ) :=
  es.foldl addExpenseToGroups []

structure CategoryTotal where
  category : String
  total : ℚ
  count : ℕ
  color : String
  deriving DecidableEq

/-- The descending-total order used by the comparator (a, b) => b.total - a.total. -/
def byTotalDesc (a b : CategoryTotal) : Prop := b.total ≤ a.total

instance : DecidableRel byTotalDesc := fun a b => inferInstanceAs (Decidable (b.total ≤ a.total))

instance : IsTotal CategoryTotal byTotalDesc := ⟨fun a b => le_total b.total a.total⟩

instance : IsTrans CategoryTotal byTotalDesc :=
  ⟨fun _ _ _ hab hbc => le_trans hbc hab⟩

/-- calculateCategoryTotals of the analysis screen: group the expenses by
category, attach the category colors, and sort by total in descending
order. -/
def calculateCategoryTotals (es : List Expense) : List CategoryTotal :=
  List.insertionSort byTotalDesc
    ((categoryGroups es).map (fun g => ⟨g.1, g.2.1, g.2.2, getCategoryColor g.1⟩))

/-- The monthly total computed in loadExpenses of the analysis screen:
expenses.reduce((sum, expense) => sum + Number(expense.amount), 0). -/
def monthlyTotal (es : List Expense) : ℚ :=
  es.foldl (fun s e => s + e.amount) 0

/-- calculatePercentage of the analysis screen: 0 when the monthly total is
0, else the category share of the monthly total in rounded percent. -/
def calculatePercentage (monthly categoryTotal : ℚ) : ℤ :=
  if monthly = 0 then 0 else round (categoryTotal / monthly * 100)

/-! ## Expense form save (ExpenseScreen.tsx, handleSaveExpense)

The JavaScript parseFloat together with the isNaN test is abstracted as a
parameter returning Option: none models NaN.  The outcome is the alert that
stopped the save, or the row sent to the expenses table (with the flag
telling an update from an insert). -/

structure ExpenseWrite where
  household_id : String
  created_by : String
  amount : ℚ
  store_name : String
  description : String
  category : String
  date : String
  deriving DecidableEq

inductive SaveOutcome where
  | alert (title message : String)
  | write (e : ExpenseWrite) (isUpdate : Bool)
  deriving DecidableEq

/-- The CHECK (amount > 0) constraint of the expenses table. -/
def expensesAmountCheck (a : ℚ) : Bool := 0 < a

/-- handleSaveExpense: require amount, store name and category to be
nonempty, the amount to parse to a positive number, and a household id to be
loaded; then send the update or insert.  A missing user makes the try block
throw, which the catch turns into an error alert. -/
def handleSaveExpense (parseAmount : String → Option ℚ)
    (amount storeName description category date : String)
    (householdId : Option String) (uid : Option String) (isEditing : Bool) :
    SaveOutcome :=
  if amount = "" || storeName = "" || category = "" then
    .alert "Required Fields" "Please fill in amount, store name, and category."
  else
    match parseAmount amount with
    | none => .alert "Invalid Amount" "Please enter a valid positive amount."
    | some v =>
      if v ≤ 0 then .alert "Invalid Amount" "Please enter a valid positive amount."
      else
        match householdId with
        | none => .alert "Error" "No household found. Please join or create a household first."
        | some hid =>
          match uid with
          | none => .alert "Error" "Failed to save expense. Please try again."
          | some u =>
            .write ⟨hid, u, v, jsTrim storeName, jsTrim description, category, date⟩ isEditing

/-! ## Home screen expense loading (HomeScreen inside ExpenseScreen.tsx)

What matters for the error-handling claim is which network requests the
function issues, as a function of whether the first, RPC, read fails; the
embedding returns that request trace. -/

inductive NetRequest where
  | rpcCall (rpcName : String)
  | tableSelect (table : String)
  deriving DecidableEq

/-- The requests issued by loadExpenses of the home screen: the
get_expenses_with_creator_profiles RPC first and, only when that read
fails, a fallback direct query of the expenses table. -/
def homeLoadExpensesRequests (rpcFails : Bool) : List NetRequest :=
  if rpcFails then
    [.rpcCall "get_expenses_with_creator_profiles", .tableSelect "expenses"]
  else
    [.rpcCall "get_expenses_with_creator_profiles"]

/-- The requests issued by loadHouseholdMembers of the settings screen
(SettingsScreen.tsx): the get_household_members_with_profiles RPC first
and, only when that read fails, a fallback direct query of the
household_members table.  These two loaders are the only places in the
program that issue an alternative request after a failure. -/
def settingsLoadMembersRequests (rpcFails : Bool) : List NetRequest :=
  if rpcFails then
    [.rpcCall "get_household_members_with_profiles", .tableSelect "household_members"]
  else
    [.rpcCall "get_household_members_with_profiles"]

/-! ## Session storage adapters (supabaseClient.web.ts and
supabaseClient.native.ts)

The device store (localStorage on web, SecureStore on native) is modelled as
an explicit key-value list; the web adapter additionally guards on the
store being available.  The auth options record mirrors the createClient
configuration. -/

abbrev DeviceStore := List (String × String)

/-- The web storage adapter getItem: null when localStorage is unavailable,
else the stored value. -/
def storageGetItem (available : Bool) (st : DeviceStore) (key : String) : Option String :=
  if !available then none
  else ((st.find? (fun kv => kv.1 = key)).map (fun kv => kv.2))

/-- The web storage adapter setItem: a no-op when localStorage is
unavailable, else store the value under the key. -/
def storageSetItem (available : Bool) (st : DeviceStore) (key value : String) : DeviceStore :=
  if !available then st
  else if st.any (fun kv => kv.1 = key) then
    st.map (fun kv => if kv.1 = key then (kv.1, value) else kv)
  else st ++ [(key, value)]

/-- The web storage adapter removeItem. -/
def storageRemoveItem (available : Bool) (st : DeviceStore) (key : String) : DeviceStore :=
  if !available then st
  else st.filter (fun kv => kv.1 ≠ key)

structure SupabaseAuthOptions where
  autoRefreshToken : Bool
  persistSession : Bool
  detectSessionInUrl : Bool
  deriving DecidableEq

/-- The auth options passed to createClient in both supabaseClient.native.ts
and supabaseClient.web.ts. -/
def supabaseAuthOptions : SupabaseAuthOptions :=
  { autoRefreshToken := true, persistSession := true, detectSessionInUrl := false }

/-! ## Lemmas about the grouping fold -/

/-- The expenses of one category: the spec-side filter the claims sum over. -/
def catFilter (es : List Expense) (c : String) : List Expense :=
  es.filter (fun e => categoryKey e = c)

/-- The sum that one category total should equal. -/
def catSum (es : List Expense) (c : String) : ℚ :=
  ((catFilter es c).map Expense.amount).sum

/-- The number of expenses of one category. -/
def catCount (es : List Expense) (c : String) : ℕ :=
  (catFilter es c).length

theorem fst_bumpGroup (c : String) (amt : ℚ) (g : String × ℚ × ℕ) :
    (bumpGroup c amt g).1 = g.1 := by
  unfold bumpGroup
  split <;> rfl

theorem find?_map_bumpGroup (groups : List (String × ℚ × ℕ)) (c d : String) (amt : ℚ) :
    (groups.map (bumpGroup c amt)).find? (fun g => g.1 = d)
      = (groups.find? (fun g => g.1 = d)).map (bumpGroup c amt) := by
  rw [List.find?_map]
  have hcomp : ((fun g : String × ℚ × ℕ => decide (g.1 = d)) ∘ bumpGroup c amt)
      = fun g : String × ℚ × ℕ => decide (g.1 = d) := by
    funext g
    simp [Function.comp, fst_bumpGroup]
  rw [hcomp]

theorem find?_addExpense_same (groups : List (String × ℚ × ℕ)) (e : Expense) :
    (addExpenseToGroups groups e).find? (fun g => g.1 = categoryKey e)
      = match groups.find? (fun g => g.1 = categoryKey e) with
        | some g => some (categoryKey e, g.2.1 + e.amount, g.2.2 + 1)
        | none => some (categoryKey e, e.amount, 1) := by
  unfold addExpenseToGroups
  by_cases hany : groups.any (fun g => g.1 = categoryKey e) = true
  · rw [if_pos hany, find?_map_bumpGroup]
    obtain ⟨x, hx, hpx⟩ := List.any_eq_true.mp hany
    have hsome : (groups.find? (fun g => g.1 = categoryKey e)).isSome := by
      rw [List.find?_isSome]
      exact ⟨x, hx, hpx⟩
    cases hfind : groups.find? (fun g => g.1 = categoryKey e) with
    | none => rw [hfind] at hsome; simp at hsome
    | some g =>
        have hg : g.1 = categoryKey e := by
          have := List.find?_some hfind
          simpa using this
        simp only [Option.map_some']
        rw [bumpGroup, if_pos hg, hg]
  · rw [if_neg hany, List.find?_append]
    have hnone : groups.find? (fun g => g.1 = categoryKey e) = none := by
      rw [List.find?_eq_none]
      intro x hx
      simp only [decide_eq_true_eq]
      intro hx1
      exact hany (List.any_eq_true.mpr ⟨x, hx, by simp [hx1]⟩)
    rw [hnone]
    simp [List.find?]

theorem find?_addExpense_other (groups : List (String × ℚ × ℕ)) (e : Expense)
    (d : String) (hd : d ≠ categoryKey e) :
    (addExpenseToGroups groups e).find? (fun g => g.1 = d)
      = groups.find? (fun g => g.1 = d) := by
  unfold addExpenseToGroups
  by_cases hany : groups.any (fun g => g.1 = categoryKey e) = true
  · rw [if_pos hany, find?_map_bumpGroup]
    cases hfind : groups.find? (fun g => g.1 = d) with
    | none => rfl
    | some g =>
        have hg : g.1 = d := by
          have := List.find?_some hfind
          simpa using this
        simp only [Option.map_some']
        rw [bumpGroup, if_neg (by rw [hg]; exact hd)]
  · rw [if_neg hany, List.find?_append]
    have : List.find? (fun g : String × ℚ × ℕ => decide (g.1 = d)) [(categoryKey e, e.amount, 1)] = none := by
      simp [List.find?, Ne.symm hd]
    rw [this]
    simp

theorem catSum_cons (e : Expense) (es : List Expense) (c : String) :
    catSum (e :: es) c = (if categoryKey e = c then e.amount else 0) + catSum es c := by
  unfold catSum catFilter
  by_cases h : categoryKey e = c
  · rw [List.filter_cons_of_pos (by simpa using h), if_pos h]
    simp
  · rw [List.filter_cons_of_neg (by simpa using h), if_neg h]
    simp

theorem catCount_cons (e : Expense) (es : List Expense) (c : String) :
    catCount (e :: es) c = (if categoryKey e = c then 1 else 0) + catCount es c := by
  unfold catCount catFilter
  by_cases h : categoryKey e = c
  · rw [List.filter_cons_of_pos (by simpa using h), if_pos h]
    simp [Nat.add_comm]
  · rw [List.filter_cons_of_neg (by simpa using h), if_neg h]
    simp

theorem foldl_addExpense_find? (es : List Expense) :
    ∀ (acc : List (String × ℚ × ℕ)) (c : String),
      (es.foldl addExpenseToGroups acc).find? (fun g => g.1 = c)
        = match acc.find? (fun g => g.1 = c) with
          | some g => some (c, g.2.1 + catSum es c, g.2.2 + catCount es c)
          | none =>
              if catCount es c = 0 then none else some (c, catSum es c, catCount es c) := by
  induction es with
  | nil =>
      intro acc c
      simp only [List.foldl_nil]
      cases hfind : acc.find? (fun g => g.1 = c) with
      | none => simp [catCount, catFilter]
      | some g =>
          have hg : g.1 = c := by
            have := List.find?_some hfind
            simpa using this
          simp [catSum, catCount, catFilter, ← hg]
  | cons e es ih =>
      intro acc c
      rw [List.foldl_cons]
      by_cases hc : categoryKey e = c
      · subst hc
        rw [ih (addExpenseToGroups acc e) (categoryKey e), find?_addExpense_same,
            catSum_cons, catCount_cons, if_pos rfl, if_pos rfl]
        cases hfind : acc.find? (fun g => g.1 = categoryKey e) with
        | some g =>
            simp only [Option.some.injEq, Prod.mk.injEq, true_and]
            exact ⟨by ring, by omega⟩
        | none =>
            simp only []
            rw [if_neg (by omega)]
      · rw [ih (addExpenseToGroups acc e) c, find?_addExpense_other acc e c (fun h => hc h.symm),
            catSum_cons, catCount_cons, if_neg hc, if_neg hc, zero_add, Nat.zero_add]

theorem keys_map_bumpGroup (groups : List (String × ℚ × ℕ)) (c : String) (amt : ℚ) :
    (groups.map (bumpGroup c amt)).map (fun g => g.1) = groups.map (fun g => g.1) := by
  rw [List.map_map]
  exact List.map_congr_left (fun g _ => fst_bumpGroup c amt g)

theorem keys_addExpense_nodup (groups : List (String × ℚ × ℕ)) (e : Expense)
    (hnd : (groups.map (fun g => g.1)).Nodup) :
    ((addExpenseToGroups groups e).map (fun g => g.1)).Nodup := by
  unfold addExpenseToGroups
  by_cases hany : groups.any (fun g => g.1 = categoryKey e) = true
  · rw [if_pos hany, keys_map_bumpGroup]
    exact hnd
  · rw [if_neg hany, List.map_append]
    simp only [List.map_cons, List.map_nil]
    rw [List.nodup_append]
    refine ⟨hnd, List.nodup_singleton _, ?_⟩
    intro a ha hb
    simp only [List.mem_singleton] at hb
    subst hb
    obtain ⟨g, hg, hg1⟩ := List.mem_map.mp ha
    exact hany (List.any_eq_true.mpr ⟨g, hg, by simp [hg1]⟩)

theorem categoryGroups_keys_nodup (es : List Expense) :
    ((categoryGroups es).map (fun g => g.1)).Nodup := by
  unfold categoryGroups
  have hgen : ∀ (acc : List (String × ℚ × ℕ)), (acc.map (fun g => g.1)).Nodup →
      ((es.foldl addExpenseToGroups acc).map (fun g => g.1)).Nodup := by
    induction es with
    | nil => intro acc h; simpa using h
    | cons e es ih =>
        intro acc h
        rw [List.foldl_cons]
        exact ih _ (keys_addExpense_nodup acc e h)
  exact hgen [] (by simp)

theorem find?_eq_of_mem_of_nodup_keys (groups : List (String × ℚ × ℕ))
    (g : String × ℚ × ℕ) (hnd : (groups.map (fun x => x.1)).Nodup) (hm : g ∈ groups) :
    groups.find? (fun x => x.1 = g.1) = some g := by
  induction groups with
  | nil => cases hm
  | cons h t ih =>
      rcases List.mem_cons.mp hm with heq | hmt
      · subst heq
        simp [List.find?]
      · have hne : h.1 ≠ g.1 := by
          simp only [List.map_cons, List.nodup_cons] at hnd
          intro hc
          exact hnd.1 (hc ▸ List.mem_map.mpr ⟨g, hmt, rfl⟩)
        rw [List.find?_cons]
        have hd : decide (h.1 = g.1) = false := by simp [hne]
        rw [hd]
        exact ih (by simp only [List.map_cons, List.nodup_cons] at hnd; exact hnd.2) hmt

/-- The sum of the running totals of an association list of groups. -/
def sumTotals (groups : List (String × ℚ × ℕ)) : ℚ :=
  (groups.map (fun g => g.2.1)).sum

/-- The sum of the running counts of an association list of groups. -/
def sumCounts (groups : List (String × ℚ × ℕ)) : ℕ :=
  (groups.map (fun g => g.2.2)).sum

theorem sumTotals_map_bumpGroup (c : String) (amt : ℚ) :
    ∀ (groups : List (String × ℚ × ℕ)),
      (groups.map (fun g => g.1)).Nodup →
      groups.any (fun g => g.1 = c) = true →
      sumTotals (groups.map (bumpGroup c amt)) = sumTotals groups + amt := by
  intro groups
  induction groups with
  | nil => intro _ hany; simp at hany
  | cons g gs ih =>
      intro hnd hany
      simp only [List.map_cons, List.nodup_cons] at hnd
      by_cases hg : g.1 = c
      · have htail : ∀ x ∈ gs, bumpGroup c amt x = x := by
          intro x hx
          unfold bumpGroup
          rw [if_neg]
          intro hx1
          exact hnd.1 (hg ▸ hx1 ▸ List.mem_map.mpr ⟨x, hx, rfl⟩)
        unfold sumTotals
        simp only [List.map_cons, List.map_map]
        rw [show gs.map ((fun g : String × ℚ × ℕ => g.2.1) ∘ bumpGroup c amt)
              = gs.map (fun g => g.2.1) from
            List.map_congr_left (fun x hx => by simp [Function.comp, htail x hx])]
        unfold bumpGroup
        rw [if_pos hg]
        simp only [List.sum_cons]
        ring
      · have hany2 : gs.any (fun g => g.1 = c) = true := by
          rcases List.any_eq_true.mp hany with ⟨x, hx, hpx⟩
          rcases List.mem_cons.mp hx with he | hxs
          · exfalso; apply hg; subst he; simpa using hpx
          · exact List.any_eq_true.mpr ⟨x, hxs, hpx⟩
        unfold sumTotals
        simp only [List.map_cons, List.sum_cons]
        have := ih hnd.2 hany2
        unfold sumTotals at this
        rw [show bumpGroup c amt g = g by unfold bumpGroup; rw [if_neg hg]]
        rw [show ((gs.map (bumpGroup c amt)).map (fun g => g.2.1)).sum
              = (gs.map (fun g => g.2.1)).sum + amt from this]
        ring

theorem sumCounts_map_bumpGroup (c : String) (amt : ℚ) :
    ∀ (groups : List (String × ℚ × ℕ)),
      (groups.map (fun g => g.1)).Nodup →
      groups.any (fun g => g.1 = c) = true →
      sumCounts (groups.map (bumpGroup c amt)) = sumCounts groups + 1 := by
  intro groups
  induction groups with
  | nil => intro _ hany; simp at hany
  | cons g gs ih =>
      intro hnd hany
      simp only [List.map_cons, List.nodup_cons] at hnd
      by_cases hg : g.1 = c
      · have htail : ∀ x ∈ gs, bumpGroup c amt x = x := by
          intro x hx
          unfold bumpGroup
          rw [if_neg]
          intro hx1
          exact hnd.1 (hg ▸ hx1 ▸ List.mem_map.mpr ⟨x, hx, rfl⟩)
        unfold sumCounts
        simp only [List.map_cons, List.map_map]
        rw [show gs.map ((fun g : String × ℚ × ℕ => g.2.2) ∘ bumpGroup c amt)
              = gs.map (fun g => g.2.2) from
            List.map_congr_left (fun x hx => by simp [Function.comp, htail x hx])]
        unfold bumpGroup
        rw [if_pos hg]
        simp only [List.sum_cons]
        omega
      · have hany2 : gs.any (fun g => g.1 = c) = true := by
          rcases List.any_eq_true.mp hany with ⟨x, hx, hpx⟩
          rcases List.mem_cons.mp hx with he | hxs
          · exfalso; apply hg; subst he; simpa using hpx
          · exact List.any_eq_true.mpr ⟨x, hxs, hpx⟩
        unfold sumCounts
        simp only [List.map_cons, List.sum_cons]
        have := ih hnd.2 hany2
        unfold sumCounts at this
        rw [show bumpGroup c amt g = g by unfold bumpGroup; rw [if_neg hg]]
        rw [show ((gs.map (bumpGroup c amt)).map (fun g => g.2.2)).sum
              = (gs.map (fun g => g.2.2)).sum + 1 from this]
        omega

theorem sumTotals_addExpense (groups : List (String × ℚ × ℕ)) (e : Expense)
    (hnd : (groups.map (fun g => g.1)).Nodup) :
    sumTotals (addExpenseToGroups groups e) = sumTotals groups + e.amount := by
  unfold addExpenseToGroups
  by_cases hany : groups.any (fun g => g.1 = categoryKey e) = true
  · rw [if_pos hany]
    exact sumTotals_map_bumpGroup (categoryKey e) e.amount groups hnd hany
  · rw [if_neg hany]
    unfold sumTotals
    simp

theorem sumCounts_addExpense (groups : List (String × ℚ × ℕ)) (e : Expense)
    (hnd : (groups.map (fun g => g.1)).Nodup) :
    sumCounts (addExpenseToGroups groups e) = sumCounts groups + 1 := by
  unfold addExpenseToGroups
  by_cases hany : groups.any (fun g => g.1 = categoryKey e) = true
  · rw [if_pos hany]
    exact sumCounts_map_bumpGroup (categoryKey e) e.amount groups hnd hany
  · rw [if_neg hany]
    unfold sumCounts
    simp

theorem sumTotals_foldl (es : List Expense) :
    ∀ (acc : List (String × ℚ × ℕ)), (acc.map (fun g => g.1)).Nodup →
      sumTotals (es.foldl addExpenseToGroups acc)
        = sumTotals acc + (es.map Expense.amount).sum := by
  induction es with
  | nil => intro acc _; simp
  | cons e es ih =>
      intro acc hnd
      rw [List.foldl_cons, ih _ (keys_addExpense_nodup acc e hnd),
          sumTotals_addExpense acc e hnd]
      simp only [List.map_cons, List.sum_cons]
      ring

theorem sumCounts_foldl (es : List Expense) :
    ∀ (acc : List (String × ℚ × ℕ)), (acc.map (fun g => g.1)).Nodup →
      sumCounts (es.foldl addExpenseToGroups acc) = sumCounts acc + es.length := by
  induction es with
  | nil => intro acc _; simp
  | cons e es ih =>
      intro acc hnd
      rw [List.foldl_cons, ih _ (keys_addExpense_nodup acc e hnd),
          sumCounts_addExpense acc e hnd]
      simp only [List.length_cons]
      omega

theorem monthlyTotal_eq_sum (es : List Expense) :
    monthlyTotal es = (es.map Expense.amount).sum := by
  unfold monthlyTotal
  have hgen : ∀ (a : ℚ), es.foldl (fun s e => s + e.amount) a = a + (es.map Expense.amount).sum := by
    induction es with
    | nil => intro a; simp
    | cons e es ih =>
        intro a
        rw [List.foldl_cons, ih]
        simp only [List.map_cons, List.sum_cons]
        ring
  rw [hgen 0, zero_add]

/-! ## Claim theorems -/

/-- C1: every join code produced at household creation is exactly six
characters long and contains no lowercase character: the generate_join_code
trigger forms UPPER of the first six characters of the MD5 digest text (a
string of at least six characters), and the create_household_only RPC
generates its code the same way. -/
theorem join_code_six_chars_uppercase (md5text : String) (h : 6 ≤ md5text.length) :
    (generate_join_code md5text).length = 6
    ∧ (∀ c ∈ (generate_join_code md5text).data, c.isLower = false)
    ∧ create_household_only_join_code md5text = generate_join_code md5text := by
  refine ⟨?_, ?_, rfl⟩
  · rw [generate_join_code, sqlUpper_length, sqlSubstring_length]
    omega
  · intro c hc
    have hc2 : c ∈ (md5text.data.take 6).map Char.toUpper := hc
    obtain ⟨d, _, rfl⟩ := List.mem_map.mp hc2
    exact char_toUpper_not_isLower d

/-- C1 witness: the theorem applied to a concrete 32-character digest. -/
theorem join_code_six_chars_uppercase_witness :
    6 ≤ ("0cc175b9c0f1b6a831c399e269772661" : String).length
    ∧ ((generate_join_code "0cc175b9c0f1b6a831c399e269772661").length = 6
       ∧ (∀ c ∈ (generate_join_code "0cc175b9c0f1b6a831c399e269772661").data, c.isLower = false)
       ∧ create_household_only_join_code "0cc175b9c0f1b6a831c399e269772661"
           = generate_join_code "0cc175b9c0f1b6a831c399e269772661") :=
  ⟨by decide, join_code_six_chars_uppercase "0cc175b9c0f1b6a831c399e269772661" (by decide)⟩


theorem join_household_with_code_found_already (db : DB) (code dn : String) (uid : Nat)
    (h : Household)
    (hfind : db.households.find? (fun hh => hh.join_code = sqlUpper code) = some h)
    (hmem : memberExists db uid h.id = true) :
    join_household_with_code db code dn uid = (db, some h.id) := by
  unfold join_household_with_code
  rw [hfind]
  exact if_pos hmem

theorem join_household_with_code_found_new (db : DB) (code dn : String) (uid : Nat)
    (h : Household)
    (hfind : db.households.find? (fun hh => hh.join_code = sqlUpper code) = some h)
    (hmem : ¬ memberExists db uid h.id = true) :
    join_household_with_code db code dn uid
      = ({ db with members := db.members ++ [⟨uid, h.id, dn, "member"⟩] }, some h.id) := by
  unfold join_household_with_code
  rw [hfind]
  exact if_neg hmem

theorem join_household_with_code_not_found (db : DB) (code dn : String) (uid : Nat)
    (hfind : db.households.find? (fun hh => hh.join_code = sqlUpper code) = none) :
    join_household_with_code db code dn uid = (db, none) := by
  unfold join_household_with_code
  rw [hfind]

/-- C2: joining a household is insert-if-not-member and idempotent.  For the
client, when the code resolves to a household of which the user is already a
member, joinHousehold stops at the already-a-member outcome and changes
nothing.  For the SQL function, running join_household_with_code a second
time with the same code and user leaves the database exactly as after the
first run. -/
theorem join_household_idempotent :
    (∀ (db : DB) (uid : Nat) (email : Option String) (joinCode displayName : String)
        (showNameField : Bool) (h : Household) (rest : List Household),
        jsTrim joinCode ≠ "" →
        (showNameField = true → jsTrim displayName ≠ "") →
        find_household_by_join_code db (jsTrim joinCode) = h :: rest →
        memberExists db uid h.id = true →
        joinHousehold db uid email joinCode displayName showNameField
          = (db, JoinOutcome.alreadyMember))
    ∧ (∀ (db : DB) (code dn1 dn2 : String) (uid : Nat),
        (join_household_with_code
            (join_household_with_code db code dn1 uid).1 code dn2 uid).1
          = (join_household_with_code db code dn1 uid).1) := by
  constructor
  · intro db uid email joinCode displayName showNameField h rest h1 h2 hfind hmem
    have hname : (showNameField && decide (jsTrim displayName = "")) ≠ true := by
      cases hsf : showNameField with
      | false => simp
      | true => simp [h2 hsf]
    unfold joinHousehold
    rw [if_neg h1, if_neg hname, hfind]
    simp only [hmem, if_true]
  · intro db code dn1 dn2 uid
    cases hfind : db.households.find? (fun hh => hh.join_code = sqlUpper code) with
    | none =>
        rw [join_household_with_code_not_found db code dn1 uid hfind]
        show (join_household_with_code db code dn2 uid).1 = db
        rw [join_household_with_code_not_found db code dn2 uid hfind]
    | some h =>
        by_cases hmem : memberExists db uid h.id = true
        · rw [join_household_with_code_found_already db code dn1 uid h hfind hmem]
          show (join_household_with_code db code dn2 uid).1 = db
          rw [join_household_with_code_found_already db code dn2 uid h hfind hmem]
        · rw [join_household_with_code_found_new db code dn1 uid h hfind hmem]
          show (join_household_with_code
              { db with members := db.members ++ [⟨uid, h.id, dn1, "member"⟩] } code dn2 uid).1
            = ({ db with members := db.members ++ [⟨uid, h.id, dn1, "member"⟩] } : DB)
          have hfind2 : ({ db with members := db.members ++ [⟨uid, h.id, dn1, "member"⟩] } : DB).households.find?
              (fun hh => hh.join_code = sqlUpper code) = some h := hfind
          have hmem2 : memberExists
              { db with members := db.members ++ [⟨uid, h.id, dn1, "member"⟩] } uid h.id = true := by
            unfold memberExists
            simp [List.any_append]
          rw [join_household_with_code_found_already _ code dn2 uid h hfind2 hmem2]

/-- C2 witness: the theorem applied at a concrete database in which user 1
is already a member of the household with code ABC123, and at a concrete
second run of the SQL join. -/
theorem join_household_idempotent_witness :
    (joinHousehold
        ⟨[⟨1, some "Ann"⟩], [⟨7, "home", 1, "ABC123"⟩], [⟨1, 7, "Ann", "admin"⟩]⟩
        1 (some "ann@mail.com") "abc123" "" false
      = (⟨[⟨1, some "Ann"⟩], [⟨7, "home", 1, "ABC123"⟩], [⟨1, 7, "Ann", "admin"⟩]⟩,
         JoinOutcome.alreadyMember))
    ∧ ((join_household_with_code
          (join_household_with_code
            ⟨[⟨1, some "Ann"⟩], [⟨7, "home", 1, "ABC123"⟩], []⟩ "abc123" "Ann" 1).1
          "abc123" "Ann" 1).1
        = (join_household_with_code
            ⟨[⟨1, some "Ann"⟩], [⟨7, "home", 1, "ABC123"⟩], []⟩ "abc123" "Ann" 1).1) :=
  ⟨join_household_idempotent.1
      ⟨[⟨1, some "Ann"⟩], [⟨7, "home", 1, "ABC123"⟩], [⟨1, 7, "Ann", "admin"⟩]⟩
      1 (some "ann@mail.com") "abc123" "" false
      ⟨7, "home", 1, "ABC123"⟩ [] (by decide) (by intro h; cases h) (by decide) (by decide),
   join_household_idempotent.2
      ⟨[⟨1, some "Ann"⟩], [⟨7, "home", 1, "ABC123"⟩], []⟩ "abc123" "Ann" "Ann" 1⟩

/-- C3: an unknown join code fails cleanly.  When no household carries
UPPER of the trimmed code, joinHousehold ends in the invalid-code alert and
the database is unchanged, with no membership inserted. -/
theorem join_household_invalid_code (db : DB) (uid : Nat) (email : Option String)
    (joinCode displayName : String) (showNameField : Bool)
    (h1 : jsTrim joinCode ≠ "")
    (h2 : showNameField = true → jsTrim displayName ≠ "")
    (h3 : ∀ h ∈ db.households, h.join_code ≠ sqlUpper (jsTrim joinCode)) :
    joinHousehold db uid email joinCode displayName showNameField
      = (db, JoinOutcome.invalidCode) := by
  have hfind : find_household_by_join_code db (jsTrim joinCode) = [] := by
    unfold find_household_by_join_code
    rw [List.filter_eq_nil_iff]
    intro h hm
    simp only [decide_eq_true_eq]
    exact h3 h hm
  have hname : (showNameField && decide (jsTrim displayName = "")) ≠ true := by
    cases hsf : showNameField with
    | false => simp
    | true => simp [h2 hsf]
  unfold joinHousehold
  rw [if_neg h1, if_neg hname, hfind]

/-- C3 witness: the theorem applied at a concrete database with no
household carrying the searched code. -/
theorem join_household_invalid_code_witness :
    joinHousehold ⟨[⟨1, some "Ann"⟩], [⟨7, "home", 1, "ABC123"⟩], []⟩
        1 (some "ann@mail.com") "zzzzzz" "" false
      = (⟨[⟨1, some "Ann"⟩], [⟨7, "home", 1, "ABC123"⟩], []⟩, JoinOutcome.invalidCode) :=
  join_household_invalid_code ⟨[⟨1, some "Ann"⟩], [⟨7, "home", 1, "ABC123"⟩], []⟩
    1 (some "ann@mail.com") "zzzzzz" "" false (by decide) (by intro h; cases h) (by decide)

/-- C8: trigger-based auto-membership.  Whenever an insert into households
succeeds, the resulting state contains the creator as a member of the new
household with role admin; and the client-side membership step of
createHousehold is redundant under this invariant, because it skips its
insert whenever a membership already exists. -/
theorem household_creator_auto_member :
    (∀ (db : DB) (newId : Nat) (hname : String) (creator : Nat) (md5text : String) (db2 : DB),
        insertHousehold db newId hname creator md5text = some db2 →
        ∃ m ∈ db2.members, m.user_id = creator ∧ m.household_id = newId ∧ m.role = "admin")
    ∧ (∀ (db : DB) (uid hid : Nat) (dn : String),
        memberExists db uid hid = true →
        createHouseholdMemberStep db uid hid dn = db) := by
  constructor
  · intro db newId hname creator md5text db2 hins
    unfold insertHousehold add_household_creator_as_member at hins
    dsimp only at hins
    cases hfn : (db.profiles.find? (fun p => p.id = creator)).bind Profile.full_name with
    | none => rw [hfn] at hins; cases hins
    | some fn =>
        rw [hfn] at hins
        simp only [Option.some.injEq] at hins
        refine ⟨⟨creator, newId, fn, "admin"⟩, ?_, rfl, rfl, rfl⟩
        rw [← hins]
        simp
  · intro db uid hid dn hmem
    unfold createHouseholdMemberStep
    rw [if_pos hmem]

/-- C8 witness: the theorem applied at a concrete creation, in which the
trigger makes user 1 the admin member of household 7, and at the concrete
redundant client step. -/
theorem household_creator_auto_member_witness :
    (∃ m ∈ (⟨[⟨1, some "Ann"⟩], [⟨7, "home", 1, "0CC175"⟩], [⟨1, 7, "Ann", "admin"⟩]⟩ : DB).members,
        m.user_id = 1 ∧ m.household_id = 7 ∧ m.role = "admin")
    ∧ createHouseholdMemberStep
        ⟨[⟨1, some "Ann"⟩], [⟨7, "home", 1, "0CC175"⟩], [⟨1, 7, "Ann", "admin"⟩]⟩ 1 7 "Ann"
      = ⟨[⟨1, some "Ann"⟩], [⟨7, "home", 1, "0CC175"⟩], [⟨1, 7, "Ann", "admin"⟩]⟩ :=
  ⟨household_creator_auto_member.1 ⟨[⟨1, some "Ann"⟩], [], []⟩ 7 "home" 1
      "0cc175b9c0f1b6a831c399e269772661"
      ⟨[⟨1, some "Ann"⟩], [⟨7, "home", 1, "0CC175"⟩], [⟨1, 7, "Ann", "admin"⟩]⟩ (by decide),
   household_creator_auto_member.2
      ⟨[⟨1, some "Ann"⟩], [⟨7, "home", 1, "0CC175"⟩], [⟨1, 7, "Ann", "admin"⟩]⟩ 1 7 "Ann" (by decide)⟩

/-- C10: calculatePercentage never divides by zero: it returns 0 when the
monthly total is 0 and otherwise the rounded percentage share. -/
theorem calculate_percentage_total_zero_safe (monthly categoryTotal : ℚ) :
    (monthly = 0 → calculatePercentage monthly categoryTotal = 0)
    ∧ (monthly ≠ 0 → calculatePercentage monthly categoryTotal
        = round (categoryTotal / monthly * 100)) := by
  constructor
  · intro h
    unfold calculatePercentage
    rw [if_pos h]
  · intro h
    unfold calculatePercentage
    rw [if_neg h]

/-- C10 witness: the theorem applied at a zero and at a nonzero monthly
total. -/
theorem calculate_percentage_total_zero_safe_witness :
    calculatePercentage 0 5 = 0
    ∧ calculatePercentage 4 1 = round ((1 : ℚ) / 4 * 100) :=
  ⟨(calculate_percentage_total_zero_safe 0 5).1 rfl,
   (calculate_percentage_total_zero_safe 4 1).2 (by norm_num)⟩

/-- C9: an expense write only happens under validated preconditions.  When
handleSaveExpense issues a write, the amount came from the parser, is
strictly positive and satisfies the CHECK (amount > 0) constraint of the
expenses table, the form fields were nonempty, and the household id was
loaded; and whenever one of the checks fails the function ends in an alert
instead of a write. -/
theorem save_expense_validated (parseAmount : String → Option ℚ)
    (amount storeName description category date : String)
    (householdId uid : Option String) (isEditing : Bool) :
    (∀ (e : ExpenseWrite) (b : Bool),
        handleSaveExpense parseAmount amount storeName description category date
            householdId uid isEditing = SaveOutcome.write e b →
        parseAmount amount = some e.amount ∧ 0 < e.amount
          ∧ expensesAmountCheck e.amount = true
          ∧ amount ≠ "" ∧ storeName ≠ "" ∧ category ≠ ""
          ∧ householdId = some e.household_id ∧ uid = some e.created_by ∧ b = isEditing)
    ∧ ((amount = "" ∨ storeName = "" ∨ category = "" ∨ parseAmount amount = none
          ∨ (∃ v, parseAmount amount = some v ∧ v ≤ 0) ∨ householdId = none) →
        ∃ t m, handleSaveExpense parseAmount amount storeName description category date
            householdId uid isEditing = SaveOutcome.alert t m) := by
  constructor
  · intro e b heq
    unfold handleSaveExpense at heq
    by_cases h1 : (decide (amount = "") || decide (storeName = "") || decide (category = "")) = true
    · rw [if_pos h1] at heq
      cases heq
    · rw [if_neg h1] at heq
      simp only [Bool.or_eq_true, decide_eq_true_eq, not_or] at h1
      cases hp : parseAmount amount with
      | none => rw [hp] at heq; cases heq
      | some v =>
          rw [hp] at heq
          simp only [] at heq
          by_cases h2 : v ≤ 0
          · rw [if_pos h2] at heq; cases heq
          · rw [if_neg h2] at heq
            cases hhid : householdId with
            | none => rw [hhid] at heq; cases heq
            | some hid =>
                rw [hhid] at heq
                simp only [] at heq
                cases huid : uid with
                | none => rw [huid] at heq; cases heq
                | some u =>
                    rw [huid] at heq
                    simp only [SaveOutcome.write.injEq] at heq
                    obtain ⟨he, hb⟩ := heq
                    subst hb
                    cases he
                    exact ⟨rfl, not_le.mp h2, decide_eq_true (not_le.mp h2),
                      h1.1.1, h1.1.2, h1.2, rfl, rfl, rfl⟩
  · intro hbad
    unfold handleSaveExpense
    by_cases h1 : (decide (amount = "") || decide (storeName = "") || decide (category = "")) = true
    · rw [if_pos h1]
      exact ⟨_, _, rfl⟩
    · rw [if_neg h1]
      simp only [Bool.or_eq_true, decide_eq_true_eq, not_or] at h1
      cases hp : parseAmount amount with
      | none => exact ⟨_, _, rfl⟩
      | some v =>
          simp only []
          by_cases h2 : v ≤ 0
          · rw [if_pos h2]
            exact ⟨_, _, rfl⟩
          · rw [if_neg h2]
            cases hhid : householdId with
            | none => exact ⟨_, _, rfl⟩
            | some hid =>
                exfalso
                rcases hbad with h | h | h | h | ⟨w, hw, hw0⟩ | h
                · exact h1.1.1 h
                · exact h1.1.2 h
                · exact h1.2 h
                · rw [hp] at h; cases h
                · rw [hp] at hw
                  cases hw
                  exact h2 hw0
                · rw [hhid] at h; cases h

/-- C9 witness: the theorem applied at a concrete valid form (yielding a
write with a positive amount) and at a concrete invalid form (yielding an
alert). -/
theorem save_expense_validated_witness :
    ((fun s => if s = "25" then some (25 : ℚ) else none) "25"
        = some (⟨"h1", "u1", 25, "Lidl", "", "Food", "2025-01-05"⟩ : ExpenseWrite).amount
      ∧ 0 < (⟨"h1", "u1", 25, "Lidl", "", "Food", "2025-01-05"⟩ : ExpenseWrite).amount
      ∧ expensesAmountCheck (⟨"h1", "u1", 25, "Lidl", "", "Food", "2025-01-05"⟩ : ExpenseWrite).amount = true
      ∧ ("25" : String) ≠ "" ∧ ("Lidl" : String) ≠ "" ∧ ("Food" : String) ≠ ""
      ∧ (some "h1" : Option String) = some (⟨"h1", "u1", 25, "Lidl", "", "Food", "2025-01-05"⟩ : ExpenseWrite).household_id
      ∧ (some "u1" : Option String) = some (⟨"h1", "u1", 25, "Lidl", "", "Food", "2025-01-05"⟩ : ExpenseWrite).created_by
      ∧ false = false)
    ∧ (∃ t m, handleSaveExpense (fun _ => none) "" "Lidl" "" "Food" "2025-01-05"
        (some "h1") (some "u1") false = SaveOutcome.alert t m) :=
  ⟨(save_expense_validated (fun s => if s = "25" then some (25 : ℚ) else none)
      "25" "Lidl" "" "Food" "2025-01-05" (some "h1") (some "u1") false).1
      ⟨"h1", "u1", 25, "Lidl", "", "Food", "2025-01-05"⟩ false (by decide),
   (save_expense_validated (fun _ => none) "" "Lidl" "" "Food" "2025-01-05"
      (some "h1") (some "u1") false).2 (Or.inl rfl)⟩

/-- C6 counterexample: when the RPC read of the home screen loadExpenses
fails, the function does not stop after its try/catch; it issues a second,
alternative request, the fallback direct query of the expenses table. -/
theorem home_load_expenses_fallback_exists :
    homeLoadExpensesRequests true
      = [NetRequest.rpcCall "get_expenses_with_creator_profiles",
         NetRequest.tableSelect "expenses"]
    ∧ ¬ (homeLoadExpensesRequests true).length ≤ 1 := by
  exact ⟨rfl, by decide⟩

/-- C6 amended: the two fallback read paths of the program, the home
screen loadExpenses and the settings screen loadHouseholdMembers, each
issue their RPC read and, only when that read fails, exactly one
alternative fallback request; neither ever repeats a request or issues
more than the one fallback, and on success each issues only the single
RPC read. -/
theorem load_fallback_single_alternative (rpcFails : Bool) :
    ((homeLoadExpensesRequests rpcFails).Nodup
      ∧ (homeLoadExpensesRequests rpcFails).length ≤ 2
      ∧ ((homeLoadExpensesRequests rpcFails).length = 2 ↔ rpcFails = true)
      ∧ (rpcFails = false → homeLoadExpensesRequests rpcFails
          = [NetRequest.rpcCall "get_expenses_with_creator_profiles"]))
    ∧ ((settingsLoadMembersRequests rpcFails).Nodup
      ∧ (settingsLoadMembersRequests rpcFails).length ≤ 2
      ∧ ((settingsLoadMembersRequests rpcFails).length = 2 ↔ rpcFails = true)
      ∧ (rpcFails = false → settingsLoadMembersRequests rpcFails
          = [NetRequest.rpcCall "get_household_members_with_profiles"])) := by
  cases rpcFails
  · exact ⟨⟨by decide, by decide, by decide, fun _ => rfl⟩,
      ⟨by decide, by decide, by decide, fun _ => rfl⟩⟩
  · exact ⟨⟨by decide, by decide, by decide, fun h => by cases h⟩,
      ⟨by decide, by decide, by decide, fun h => by cases h⟩⟩

/-- C6 amended witness: the theorem applied at both outcomes of the RPC
reads, for both loaders. -/
theorem load_fallback_single_alternative_witness :
    homeLoadExpensesRequests false
      = [NetRequest.rpcCall "get_expenses_with_creator_profiles"]
    ∧ ((homeLoadExpensesRequests true).length = 2 ↔ true = true)
    ∧ settingsLoadMembersRequests false
      = [NetRequest.rpcCall "get_household_members_with_profiles"]
    ∧ ((settingsLoadMembersRequests true).length = 2 ↔ true = true) :=
  ⟨(load_fallback_single_alternative false).1.2.2.2 rfl,
   (load_fallback_single_alternative true).1.2.2.1,
   (load_fallback_single_alternative false).2.2.2.2 rfl,
   (load_fallback_single_alternative true).2.2.2.1⟩

/-- C7 counterexample: the client does keep durable session state on the
device.  Writing a session value through the storage adapter leaves it in
the device store, where a later getItem returns it, and the client is
configured with persistSession set to true. -/
theorem session_persisted_on_device :
    storageSetItem true [] "supabase.auth.token" "session-jwt"
      = [("supabase.auth.token", "session-jwt")]
    ∧ storageGetItem true
        (storageSetItem true [] "supabase.auth.token" "session-jwt") "supabase.auth.token"
      = some "session-jwt"
    ∧ supabaseAuthOptions.persistSession = true := by
  exact ⟨by decide, by decide, rfl⟩

/-- C7 amended: authentication logic is delegated to the platform SDK, but
the client persists session state durably on the device: its storage
adapter stores every value the SDK hands it and returns it on the next
read (doing nothing when the web store is unavailable), and the client
enables persistSession in its auth options. -/
theorem session_storage_adapter_roundtrip (st : DeviceStore) (k v : String) :
    storageGetItem true (storageSetItem true st k v) k = some v
    ∧ storageGetItem false st k = none
    ∧ storageSetItem false st k v = st
    ∧ supabaseAuthOptions.persistSession = true := by
  refine ⟨?_, rfl, rfl, rfl⟩
  unfold storageGetItem storageSetItem
  simp only [Bool.not_true, Bool.false_eq_true, if_false]
  by_cases hany : st.any (fun kv => kv.1 = k) = true
  · rw [if_pos hany, List.find?_map]
    have hcomp : ((fun kv : String × String => decide (kv.1 = k))
        ∘ fun kv => if kv.1 = k then (kv.1, v) else kv)
        = fun kv : String × String => decide (kv.1 = k) := by
      funext kv
      by_cases hk : kv.1 = k <;> simp [Function.comp, hk]
    rw [hcomp]
    obtain ⟨x, hx, hpx⟩ := List.any_eq_true.mp hany
    have hsome : (st.find? (fun kv => kv.1 = k)).isSome := by
      rw [List.find?_isSome]
      exact ⟨x, hx, hpx⟩
    cases hfind : st.find? (fun kv => kv.1 = k) with
    | none => rw [hfind] at hsome; simp at hsome
    | some g =>
        have hg : g.1 = k := by
          have := List.find?_some hfind
          simpa using this
        simp [hg]
  · rw [if_neg hany, List.find?_append]
    have hnone : st.find? (fun kv => kv.1 = k) = none := by
      rw [List.find?_eq_none]
      intro x hx
      simp only [decide_eq_true_eq]
      intro hx1
      exact hany (List.any_eq_true.mpr ⟨x, hx, by simp [hx1]⟩)
    rw [hnone]
    simp [List.find?]

theorem calculateCategoryTotals_perm (es : List Expense) :
    (calculateCategoryTotals es).Perm
      ((categoryGroups es).map (fun g => ⟨g.1, g.2.1, g.2.2, getCategoryColor g.1⟩)) :=
  List.perm_insertionSort byTotalDesc _

theorem categoryGroups_find?_eq (es : List Expense) (c : String) :
    (categoryGroups es).find? (fun g => g.1 = c)
      = if catCount es c = 0 then none else some (c, catSum es c, catCount es c) := by
  have h := foldl_addExpense_find? es [] c
  simpa [categoryGroups, List.find?] using h

theorem catCount_ne_zero_iff (es : List Expense) (c : String) :
    catCount es c ≠ 0 ↔ ∃ e ∈ es, categoryKey e = c := by
  unfold catCount catFilter
  rw [← List.countP_eq_length_filter]
  constructor
  · intro h
    obtain ⟨e, he, hp⟩ := List.countP_pos_iff.mp (Nat.pos_of_ne_zero h)
    exact ⟨e, he, by simpa using hp⟩
  · intro ⟨e, he, hp⟩
    exact Nat.pos_iff_ne_zero.mp (List.countP_pos_iff.mpr ⟨e, he, by simpa using hp⟩)

/-- C4: calculateCategoryTotals returns exactly one entry per distinct
category appearing in the list (null or empty categories counting as
Other); each total is the sum of the amounts of that category, each count
the number of its expenses, and the entries are sorted by descending
total. -/
theorem category_totals_partition_sorted (es : List Expense) :
    ((calculateCategoryTotals es).map CategoryTotal.category).Nodup
    ∧ (∀ c : String,
        (∃ t ∈ calculateCategoryTotals es, t.category = c) ↔ ∃ e ∈ es, categoryKey e = c)
    ∧ (∀ t ∈ calculateCategoryTotals es,
        t.total = catSum es t.category ∧ t.count = catCount es t.category)
    ∧ (calculateCategoryTotals es).Pairwise (fun a b => b.total ≤ a.total) := by
  have hperm := calculateCategoryTotals_perm es
  have hkeys : ((categoryGroups es).map
      (fun g : String × ℚ × ℕ => (⟨g.1, g.2.1, g.2.2, getCategoryColor g.1⟩ : CategoryTotal))).map
        CategoryTotal.category
      = (categoryGroups es).map (fun g => g.1) := by
    rw [List.map_map]
    rfl
  refine ⟨?_, ?_, ?_, ?_⟩
  · rw [(hperm.map CategoryTotal.category).nodup_iff, hkeys]
    exact categoryGroups_keys_nodup es
  · intro c
    constructor
    · intro ⟨t, ht, htc⟩
      have ht2 := hperm.mem_iff.mp ht
      obtain ⟨g, hg, hgt⟩ := List.mem_map.mp ht2
      have hfind := find?_eq_of_mem_of_nodup_keys (categoryGroups es) g
        (categoryGroups_keys_nodup es) hg
      rw [categoryGroups_find?_eq] at hfind
      by_cases hz : catCount es g.1 = 0
      · rw [if_pos hz] at hfind; cases hfind
      · have hc : g.1 = c := by rw [← htc, ← hgt]
        exact (catCount_ne_zero_iff es c).mp (hc ▸ hz)
    · intro hex
      have hz := (catCount_ne_zero_iff es c).mpr hex
      have hfind := categoryGroups_find?_eq es c
      rw [if_neg hz] at hfind
      have hmem : ((c, catSum es c, catCount es c) : String × ℚ × ℕ) ∈ categoryGroups es :=
        List.mem_of_find?_eq_some hfind
      refine ⟨⟨c, catSum es c, catCount es c, getCategoryColor c⟩, ?_, rfl⟩
      rw [hperm.mem_iff]
      exact List.mem_map.mpr ⟨(c, catSum es c, catCount es c), hmem, rfl⟩
  · intro t ht
    have ht2 := hperm.mem_iff.mp ht
    obtain ⟨g, hg, hgt⟩ := List.mem_map.mp ht2
    have hfind := find?_eq_of_mem_of_nodup_keys (categoryGroups es) g
      (categoryGroups_keys_nodup es) hg
    rw [categoryGroups_find?_eq] at hfind
    by_cases hz : catCount es g.1 = 0
    · rw [if_pos hz] at hfind; cases hfind
    · rw [if_neg hz] at hfind
      have hge : g = (g.1, catSum es g.1, catCount es g.1) := by
        have := hfind.symm
        simp only [Option.some.injEq] at this
        exact this.symm ▸ rfl
      rw [← hgt]
      simp only []
      constructor
      · have : g.2.1 = catSum es g.1 := by rw [hge]
        exact this
      · have : g.2.2 = catCount es g.1 := by rw [hge]
        exact this
  · exact List.sorted_insertionSort byTotalDesc _

/-- C4 witness: the theorem applied at a concrete expense list with a named
and a missing category. -/
theorem category_totals_partition_sorted_witness :
    ((calculateCategoryTotals
        [⟨5, some "Food", "a", "2025-01-02"⟩, ⟨3, none, "b", "2025-01-03"⟩]).map
          CategoryTotal.category).Nodup
    ∧ ((∃ t ∈ calculateCategoryTotals
          [⟨5, some "Food", "a", "2025-01-02"⟩, ⟨3, none, "b", "2025-01-03"⟩],
          t.category = "Other")
        ↔ ∃ e ∈ ([⟨5, some "Food", "a", "2025-01-02"⟩, ⟨3, none, "b", "2025-01-03"⟩] : List Expense),
            categoryKey e = "Other")
    ∧ ((⟨"Food", 5, 1, "#FF9500"⟩ : CategoryTotal).total
          = catSum [⟨5, some "Food", "a", "2025-01-02"⟩, ⟨3, none, "b", "2025-01-03"⟩] "Food"
        ∧ (⟨"Food", 5, 1, "#FF9500"⟩ : CategoryTotal).count
          = catCount [⟨5, some "Food", "a", "2025-01-02"⟩, ⟨3, none, "b", "2025-01-03"⟩] "Food")
    ∧ (calculateCategoryTotals
        [⟨5, some "Food", "a", "2025-01-02"⟩, ⟨3, none, "b", "2025-01-03"⟩]).Pairwise
          (fun a b => b.total ≤ a.total) :=
  ⟨(category_totals_partition_sorted
      [⟨5, some "Food", "a", "2025-01-02"⟩, ⟨3, none, "b", "2025-01-03"⟩]).1,
   (category_totals_partition_sorted
      [⟨5, some "Food", "a", "2025-01-02"⟩, ⟨3, none, "b", "2025-01-03"⟩]).2.1 "Other",
   (category_totals_partition_sorted
      [⟨5, some "Food", "a", "2025-01-02"⟩, ⟨3, none, "b", "2025-01-03"⟩]).2.2.1
      ⟨"Food", 5, 1, "#FF9500"⟩ (by decide),
   (category_totals_partition_sorted
      [⟨5, some "Food", "a", "2025-01-02"⟩, ⟨3, none, "b", "2025-01-03"⟩]).2.2.2⟩

/-- C5: the monthly analytics conserve the total.  The displayed monthly
total is the sum of the amounts of the loaded expenses, the per-category
totals of calculateCategoryTotals sum to that monthly total, and the
per-category counts sum to the number of expenses. -/
theorem monthly_total_conserved (es : List Expense) :
    monthlyTotal es = (es.map Expense.amount).sum
    ∧ ((calculateCategoryTotals es).map CategoryTotal.total).sum = monthlyTotal es
    ∧ ((calculateCategoryTotals es).map CategoryTotal.count).sum = es.length := by
  have hperm := calculateCategoryTotals_perm es
  have hnil : (([] : List (String × ℚ × ℕ)).map (fun g => g.1)).Nodup := by simp
  refine ⟨monthlyTotal_eq_sum es, ?_, ?_⟩
  · rw [(hperm.map CategoryTotal.total).sum_eq, List.map_map]
    have hcomp : (CategoryTotal.total ∘ fun g : String × ℚ × ℕ =>
        (⟨g.1, g.2.1, g.2.2, getCategoryColor g.1⟩ : CategoryTotal)) = fun g => g.2.1 := rfl
    rw [hcomp]
    have h := sumTotals_foldl es [] hnil
    unfold sumTotals at h
    simp only [List.map_nil, List.sum_nil, zero_add] at h
    rw [show categoryGroups es = es.foldl addExpenseToGroups [] from rfl, h,
        monthlyTotal_eq_sum es]
  · rw [(hperm.map CategoryTotal.count).sum_eq, List.map_map]
    have hcomp : (CategoryTotal.count ∘ fun g : String × ℚ × ℕ =>
        (⟨g.1, g.2.1, g.2.2, getCategoryColor g.1⟩ : CategoryTotal)) = fun g => g.2.2 := rfl
    rw [hcomp]
    have h := sumCounts_foldl es [] hnil
    unfold sumCounts at h
    simp only [List.map_nil, List.sum_nil, Nat.zero_add] at h
    rw [show categoryGroups es = es.foldl addExpenseToGroups [] from rfl, h]
